import Mathlib

/-!
Shallow embedding of the go-sanity client library (package `sanity`) and
proofs of the behavioural claims about it.

The embedding models:
* the JSON values exchanged on the wire (`Json`), together with an
  executable parser `parseJson` mirroring the acceptance behaviour of Go's
  `encoding/json` (`json.Unmarshal` requires a single JSON value followed
  only by whitespace; `json.Decoder.Decode` reads one value off the front);
* the request executor `do` from `src/sanity/client.go` at the level of an
  already-received response (status code and body text): `doErrorText`
  embeds its error branch (lines 83-101) and `doResponse` the whole
  status dispatch;
* the custom `MarshalJSON` implementations and the URL construction of the
  `ProjectsService` and `WebhooksService` methods.

Machine integers do not occur on any modelled path; status codes are `Nat`.
-/

namespace GoSanity

/-- Json is the type of JSON values. Object members are kept as an ordered
list of key/value pairs: Go emits struct fields in declaration order and
processes duplicate keys in textual order, which the list order preserves.
Numbers keep their raw literal text, since no modelled code path inspects a
numeric value. -/
inductive Json where
  | null : Json
  | bool (b : Bool) : Json
  | num (raw : String) : Json
  | str (s : String) : Json
  | arr (elems : List Json) : Json
  | obj (fields : List (String × Json)) : Json

/-- isWsChar tests for the four whitespace characters of the JSON grammar
(RFC 8259), the ones Go's `encoding/json` scanner skips. -/
def isWsChar (c : Char) : Bool :=
  c == ' ' || c == '\t' || c == '\n' || c == '\r'

/-- skipWs drops leading JSON whitespace. -/
def skipWs : List Char → List Char
  | [] => []
  | c :: cs => if isWsChar c then skipWs cs else c :: cs

/-- hexVal gives the value of a hexadecimal digit, as in `\uXXXX` escapes. -/
def hexVal (c : Char) : Option Nat :=
  if '0' ≤ c ∧ c ≤ '9' then some (c.toNat - '0'.toNat)
  else if 'a' ≤ c ∧ c ≤ 'f' then some (c.toNat - 'a'.toNat + 10)
  else if 'A' ≤ c ∧ c ≤ 'F' then some (c.toNat - 'A'.toNat + 10)
  else none

/-- isDigit tests for an ASCII decimal digit. -/
def isDigitCh (c : Char) : Bool := '0' ≤ c && c ≤ '9'

/-- takeDigits splits off a maximal run of decimal digits. -/
def takeDigits : List Char → List Char × List Char
  | [] => ([], [])
  | c :: cs =>
    if isDigitCh c then
      let (ds, rest) := takeDigits cs
      (c :: ds, rest)
    else ([], c :: cs)

/-- parseStrChars consumes the contents of a JSON string after the opening
quote, handling the escape sequences of the JSON grammar, and returns the
decoded characters together with the input after the closing quote. Raw
control characters below U+0020 are rejected, as in Go. Fuel bounds the
recursion; callers supply at least the input length plus one. -/
def parseStrChars : Nat → List Char → Option (List Char × List Char)
  | 0, _ => none
  | _, [] => none
  | fuel + 1, c :: cs =>
    if c == '"' then some ([], cs)
    else if c == '\\' then
      match cs with
      | [] => none
      | e :: cs2 =>
        let cont (ch : Char) (rest : List Char) : Option (List Char × List Char) :=
          (parseStrChars fuel rest).map fun p => (ch :: p.1, p.2)
        if e == '"' then cont '"' cs2
        else if e == '\\' then cont '\\' cs2
        else if e == '/' then cont '/' cs2
        else if e == 'b' then cont '\x08' cs2
        else if e == 'f' then cont '\x0c' cs2
        else if e == 'n' then cont '\n' cs2
        else if e == 'r' then cont '\r' cs2
        else if e == 't' then cont '\t' cs2
        else if e == 'u' then
          match cs2 with
          | h1 :: h2 :: h3 :: h4 :: cs3 =>
            match hexVal h1, hexVal h2, hexVal h3, hexVal h4 with
            | some a, some b, some c, some d =>
              cont (Char.ofNat (((a * 16 + b) * 16 + c) * 16 + d)) cs3
            | _, _, _, _ => none
          | _ => none
        else none
    else if c.toNat < 32 then none
    else (parseStrChars fuel cs).map fun p => (c :: p.1, p.2)

/-- parseNumTail consumes the optional fraction and exponent parts of a JSON
number and returns the consumed characters and the rest. -/
def parseNumTail (cs : List Char) : Option (List Char × List Char) :=
  let step1 : Option (List Char × List Char) :=
    match cs with
    | '.' :: cs1 =>
      match takeDigits cs1 with
      | ([], _) => none
      | (ds, rest) => some ('.' :: ds, rest)
    | _ => some ([], cs)
  match step1 with
  | none => none
  | some (frac, cs2) =>
    match cs2 with
    | e :: cs3 =>
      if e == 'e' || e == 'E' then
        match cs3 with
        | s :: cs4 =>
          if s == '+' || s == '-' then
            match takeDigits cs4 with
            | ([], _) => none
            | (ds, rest) => some (frac ++ e :: s :: ds, rest)
          else
            match takeDigits cs3 with
            | ([], _) => none
            | (ds, rest) => some (frac ++ e :: ds, rest)
        | [] => none
      else some (frac, cs2)
    | [] => some (frac, cs2)

/-- parseNumber consumes a JSON number literal (sign, integer part with no
leading zeros, optional fraction and exponent) and returns its raw text and
the rest of the input. -/
def parseNumber (cs : List Char) : Option (List Char × List Char) :=
  let (sign, cs1) :=
    match cs with
    | '-' :: rest => (['-'], rest)
    | _ => (([] : List Char), cs)
  match cs1 with
  | '0' :: cs2 =>
    match cs2 with
    | d :: _ =>
      if isDigitCh d then none
      else (parseNumTail cs2).map fun p => (sign ++ '0' :: p.1, p.2)
    | [] => some (sign ++ ['0'], [])
  | c :: _ =>
    if isDigitCh c then
      match takeDigits cs1 with
      | (ds, rest) => (parseNumTail rest).map fun p => (sign ++ ds ++ p.1, p.2)
    else none
  | [] => none

/-- litMatch checks that the input starts with the given keyword characters
and returns the remainder. -/
def litMatch : List Char → List Char → Option (List Char)
  | [], cs => some cs
  | _ :: _, [] => none
  | k :: ks, c :: cs => if k == c then litMatch ks cs else none

mutual

/-- parseValue parses one JSON value (after skipping leading whitespace) and
returns it with the unconsumed rest of the input. -/
def parseValue : Nat → List Char → Option (Json × List Char)
  | 0, _ => none
  | fuel + 1, cs =>
    match skipWs cs with
    | [] => none
    | c :: cs1 =>
      if c == 'n' then (litMatch ['u', 'l', 'l'] cs1).map fun r => (Json.null, r)
      else if c == 't' then (litMatch ['r', 'u', 'e'] cs1).map fun r => (Json.bool true, r)
      else if c == 'f' then (litMatch ['a', 'l', 's', 'e'] cs1).map fun r => (Json.bool false, r)
      else if c == '"' then
        (parseStrChars (cs1.length + 1) cs1).map fun p => (Json.str (String.mk p.1), p.2)
      else if c == '[' then parseArrElems fuel cs1
      else if c == '\x7b' then parseObjFields fuel cs1
      else if c == '-' || isDigitCh c then
        (parseNumber (c :: cs1)).map fun p => (Json.num (String.mk p.1), p.2)
      else none

/-- parseArrElems parses the elements of a JSON array after the opening
bracket, including the closing bracket. -/
def parseArrElems : Nat → List Char → Option (Json × List Char)
  | 0, _ => none
  | fuel + 1, cs =>
    match skipWs cs with
    | ']' :: rest => some (Json.arr [], rest)
    | cs1 =>
      match parseValue fuel cs1 with
      | none => none
      | some (v, rest) =>
        match parseArrTail fuel rest with
        | none => none
        | some (vs, rest2) => some (Json.arr (v :: vs), rest2)

/-- parseArrTail parses the remaining `, value` groups of an array and the
closing bracket. -/
def parseArrTail : Nat → List Char → Option (List Json × List Char)
  | 0, _ => none
  | fuel + 1, cs =>
    match skipWs cs with
    | ']' :: rest => some ([], rest)
    | ',' :: cs1 =>
      match parseValue fuel cs1 with
      | none => none
      | some (v, rest) =>
        match parseArrTail fuel rest with
        | none => none
        | some (vs, rest2) => some (v :: vs, rest2)
    | _ => none

/-- parseObjFields parses the members of a JSON object after the opening
brace, including the closing brace. -/
def parseObjFields : Nat → List Char → Option (Json × List Char)
  | 0, _ => none
  | fuel + 1, cs =>
    match skipWs cs with
    | '\x7d' :: rest => some (Json.obj [], rest)
    | cs1 =>
      match parseMember fuel cs1 with
      | none => none
      | some (kv, rest) =>
        match parseObjTail fuel rest with
        | none => none
        | some (kvs, rest2) => some (Json.obj (kv :: kvs), rest2)

/-- parseObjTail parses the remaining `, member` groups of an object and the
closing brace. -/
def parseObjTail : Nat → List Char → Option (List (String × Json) × List Char)
  | 0, _ => none
  | fuel + 1, cs =>
    match skipWs cs with
    | '\x7d' :: rest => some ([], rest)
    | ',' :: cs1 =>
      match parseMember fuel cs1 with
      | none => none
      | some (kv, rest) =>
        match parseObjTail fuel rest with
        | none => none
        | some (kvs, rest2) => some (kv :: kvs, rest2)
    | _ => none

/-- parseMember parses one `"key" : value` member of an object. -/
def parseMember : Nat → List Char → Option ((String × Json) × List Char)
  | 0, _ => none
  | fuel + 1, cs =>
    match skipWs cs with
    | '"' :: cs1 =>
      match parseStrChars (cs1.length + 1) cs1 with
      | none => none
      | some (key, rest) =>
        match skipWs rest with
        | ':' :: cs2 =>
          match parseValue fuel cs2 with
          | none => none
          | some (v, rest2) => some ((String.mk key, v), rest2)
        | _ => none
    | _ => none

end

/-- parseJson parses a whole body as a single JSON value, as Go's
`json.Unmarshal` does: one value, optionally surrounded by whitespace,
nothing else. -/
def parseJson (s : String) : Option Json :=
  match parseValue (s.length + 1) s.data with
  | some (j, rest) => if skipWs rest = [] then some j else none
  | none => none

/-! Embedding of the error branch of `do` (src/sanity/client.go, lines
83-101). The Go code reads the raw body, attempts
`json.Unmarshal(body, &msg)` into `struct { Message string }`, and returns
`errors.New(msg.Message)` when the unmarshal succeeds with a non-empty
message, else `fmt.Errorf("HTTP %d: %s", resp.StatusCode, string(body))`. -/

/-- goToLower lower-cases a string character-wise. It embeds Go's
`strings.ToLower`; the two agree on ASCII input, which is the only input the
modelled call sites produce or that the remote API accepts for the fields
involved (hex colors, JSON keys). -/
def goToLower (s : String) : String := String.mk (s.data.map Char.toLower)

/-- keyMatchesMessage embeds Go's case-insensitive matching of a JSON object
key against the struct field tagged `message` (`encoding/json` accepts a
case-insensitive match). -/
def keyMatchesMessage (k : String) : Bool := goToLower k == "message"

/-- scanMsg processes the members of a JSON object in order, as
`json.Unmarshal` does when filling `struct { Message string `json:"message"` }`:
every member whose key matches `message` case-insensitively assigns the
field (last one wins), a JSON string assigns its text, JSON null leaves the
field unchanged, and any other value type is an unmarshal error (`none`).
Members with non-matching keys are ignored whatever their value. -/
def scanMsg : List (String × Json) → String → Option String
  | [], acc => some acc
  | (k, v) :: rest, acc =>
    if keyMatchesMessage k then
      match v with
      | Json.str s => scanMsg rest s
      | Json.null => scanMsg rest acc
      | _ => none
    else scanMsg rest acc

/-- goUnmarshalErrMsg embeds `json.Unmarshal(body, &msg)` for the decoded
JSON value of the body: `none` means the unmarshal returns an error, `some
m` means it succeeds leaving `msg.Message = m`. A top-level JSON null
succeeds and leaves the zero value; a top-level non-object, non-null value
is a type error. -/
def goUnmarshalErrMsg : Json → Option String
  | Json.null => some ""
  | Json.obj fields => scanMsg fields ""
  | _ => none

/-- fallbackError is the text of `fmt.Errorf("HTTP %d: %s", status, body)`
(client.go line 100). -/
def fallbackError (status : Nat) (body : String) : String :=
  "HTTP " ++ toString status ++ ": " ++ body

/-- doErrorText is the error text produced by the `resp.StatusCode > 299`
branch of `do` (client.go lines 83-101) for a response body that was read
successfully: if the body unmarshals into the `errorMessage` struct with a
non-empty `Message`, that message is the error text; otherwise the
formatted fallback combining the status code and the raw body. -/
def doErrorText (status : Nat) (body : String) : String :=
  match (parseJson body).bind goUnmarshalErrMsg with
  | some m => if m ≠ "" then m else fallbackError status body
  | none => fallbackError status body

/-- doResponse is the response-handling tail of `do` (client.go lines
83-103), starting from the received status code and body text: a status
code above 299 yields the error branch, otherwise the body is decoded into
the caller's result slot by the supplied decoder (embedding
`json.NewDecoder(resp.Body).Decode(result)` at the result type in use). -/
def doResponse {α : Type} (decode : String → Except String α)
    (status : Nat) (body : String) : Except String α :=
  if status > 299 then Except.error (doErrorText status body)
  else decode body

/-- decodeGoBool embeds `json.NewDecoder(body).Decode(&active)` where
`active` is a `bool` initialised to `false` (part_000, CheckFeatureActive):
the decoder reads one JSON value off the front of the stream (trailing data
is not an error for a `Decoder`); a JSON boolean assigns the value, JSON
null leaves the preset `false`, any other value is a type error, and a
body with no JSON value at all is a syntax error. -/
def decodeGoBool (body : String) : Except String Bool :=
  match parseValue (body.length + 1) body.data with
  | some (Json.bool b, _) => Except.ok b
  | some (Json.null, _) => Except.ok false
  | some (_, _) => Except.error "json: cannot unmarshal value into Go value of type bool"
  | none => Except.error "json: syntax error"

/-- checkFeatureActive is `ProjectsService.CheckFeatureActive` (part_000,
lines 466-473) at the level of a received response: it passes a `*bool`
result slot to `do`, so the response is dispatched by `doResponse` with
`decodeGoBool`. -/
def checkFeatureActive (status : Nat) (body : String) : Except String Bool :=
  doResponse decodeGoBool status body

/-! Embedding of the custom `MarshalJSON` implementations of part_000.
Each produces the ordered member list of the serialized JSON object; Go
emits struct fields in declaration order and omits `omitempty` fields at
their zero value (empty string, nil pointer, empty map). The metadata maps
built by these marshallers hold at most the keys `color` < `externalHost`
(or the single key `tone`), already in the sorted order Go uses when
serializing a map, so emitting them in insertion order is faithful. -/

/-- UpdateProjectRequest mirrors the struct of part_000, lines 189-216. -/
structure UpdateProjectRequest where
  DisplayName : String
  StudioHost : String
  Color : String
  ExternalStudioHost : String
  IsDisabledByUser : Option Bool
  ActivityFeedEnabled : Option Bool

/-- UpdateProjectRequest.marshalFields is the member list of the object
produced by `UpdateProjectRequest.MarshalJSON` (part_000, lines 218-242):
the inner `request` struct has `displayName,omitempty`,
`studioHost,omitempty`, `metadata,omitempty`, `isDisabledByUser,omitempty`,
`activityFeedEnabled,omitempty`; the metadata map gains `color` (lower-cased)
when `Color` is non-empty and `externalHost` when `ExternalStudioHost` is
non-empty, and is omitted when it stays empty. -/
def UpdateProjectRequest.marshalFields (r : UpdateProjectRequest) :
    List (String × Json) :=
  let metadata : List (String × Json) :=
    (if r.Color ≠ "" then [("color", Json.str (goToLower r.Color))] else [])
      ++ (if r.ExternalStudioHost ≠ "" then
            [("externalHost", Json.str r.ExternalStudioHost)] else [])
  (if r.DisplayName ≠ "" then [("displayName", Json.str r.DisplayName)] else [])
    ++ (if r.StudioHost ≠ "" then [("studioHost", Json.str r.StudioHost)] else [])
    ++ (if metadata.isEmpty then [] else [("metadata", Json.obj metadata)])
    ++ (match r.IsDisabledByUser with
        | some b => [("isDisabledByUser", Json.bool b)]
        | none => [])
    ++ (match r.ActivityFeedEnabled with
        | some b => [("activityFeedEnabled", Json.bool b)]
        | none => [])

/-- CreateDatasetTagRequest mirrors the struct of part_000, lines 670-683. -/
structure CreateDatasetTagRequest where
  Name : String
  Title : String
  Description : String
  Tone : String

/-- CreateDatasetTagRequest.marshalJSON embeds `MarshalJSON` of part_000,
lines 685-711: empty `Name` or `Title` is a marshal error (checked in that
order); otherwise the object holds `name`, `title`, then `description`
(omitempty) and `metadata` (omitempty) whose map holds `tone` exactly when
`Tone` is non-empty. -/
def CreateDatasetTagRequest.marshalJSON (r : CreateDatasetTagRequest) :
    Except String (List (String × Json)) :=
  if r.Name = "" then Except.error "name is required"
  else if r.Title = "" then Except.error "title is required"
  else Except.ok
    ([("name", Json.str r.Name), ("title", Json.str r.Title)]
      ++ (if r.Description ≠ "" then [("description", Json.str r.Description)] else [])
      ++ (if r.Tone ≠ "" then [("metadata", Json.obj [("tone", Json.str r.Tone)])] else []))

/-- EditDatasetTagRequest mirrors the struct of part_000, lines 723-736. -/
structure EditDatasetTagRequest where
  Name : String
  Title : String
  Description : String
  Tone : String

/-- EditDatasetTagRequest.marshalFields embeds `MarshalJSON` of part_000,
lines 738-757: no validation; `name` has no omitempty and is always
emitted, `title`, `description` and `metadata` are omitempty, with
`metadata.tone` set exactly when `Tone` is non-empty. -/
def EditDatasetTagRequest.marshalFields (r : EditDatasetTagRequest) :
    List (String × Json) :=
  [("name", Json.str r.Name)]
    ++ (if r.Title ≠ "" then [("title", Json.str r.Title)] else [])
    ++ (if r.Description ≠ "" then [("description", Json.str r.Description)] else [])
    ++ (if r.Tone ≠ "" then [("metadata", Json.obj [("tone", Json.str r.Tone)])] else [])

/-- goLookupFirst returns the value of the first member with the given key,
used to state which keys a serialized object does and does not carry. -/
def goLookupFirst (k : String) : List (String × Json) → Option Json
  | [] => none
  | (k2, v) :: rest => if k2 = k then some v else goLookupFirst k rest

/-- hasPfx tests whether the first character list is an initial segment of
the second. -/
def hasPfx : List Char → List Char → Bool
  | [], _ => true
  | _ :: _, [] => false
  | a :: as, b :: bs => a == b && hasPfx as bs

/-- containsAux checks whether the pattern starts at this position or any
later one. -/
def containsAux (sub : List Char) : List Char → Bool
  | [] => hasPfx sub []
  | c :: cs => hasPfx sub (c :: cs) || containsAux sub cs

/-- strContainsSubstr embeds Go's `strings.Contains`: the pattern occurs as
a contiguous substring. -/
def strContainsSubstr (s sub : String) : Bool :=
  containsAux sub.data s.data

/-! Client-side behaviour of the operations with local validation. Each
action is modelled up to the point where `do` would hit the network: the
result records the list of network requests issued (URL and, when a body is
sent, its serialized member list) and the local error, if any. On the Go
side a request reaches the network exactly when neither the local check nor
`json.Marshal` of the body fails inside `do` (client.go lines 62-70). -/

/-- createDataset embeds `ProjectsService.CreateDataset` (part_000, lines
384-404) up to the network boundary: the URL is built from the base URL,
project id and dataset name, then a name containing a space fails locally
with `errors.New("name cannot contain spaces")` before `do` is called;
otherwise exactly one PUT request to that URL is issued. The first
component lists the URLs requested, the second is the local error. -/
def createDataset (baseURL projectId name : String) :
    List String × Option String :=
  let url := baseURL ++ "/v2021-06-07/projects/" ++ projectId ++ "/datasets/" ++ name
  if strContainsSubstr name " " then ([], some "name cannot contain spaces")
  else ([url], none)

/-- createDatasetTag embeds `ProjectsService.CreateDatasetTag` (part_000,
lines 713-721) together with the body-marshalling step of `do` (client.go
lines 62-70): marshalling the request runs
`CreateDatasetTagRequest.MarshalJSON`, whose error is returned before any
network call; on success exactly one POST request carrying the serialized
object is issued. -/
def createDatasetTag (baseURL projectId : String) (r : CreateDatasetTagRequest) :
    List (String × List (String × Json)) × Option String :=
  let url := baseURL ++ "/v2021-06-07/projects/" ++ projectId ++ "/tags"
  match r.marshalJSON with
  | Except.error e => ([], some e)
  | Except.ok body => ([(url, body)], none)

/-- editDatasetTag embeds `ProjectsService.EditDatasetTag` (part_000, lines
760-767) together with the body-marshalling step of `do`:
`EditDatasetTagRequest.MarshalJSON` never fails, so exactly one PUT request
carrying the serialized object is always issued. -/
def editDatasetTag (baseURL projectId tagIdentifier : String)
    (r : EditDatasetTagRequest) :
    List (String × List (String × Json)) × Option String :=
  let url := baseURL ++ "/v2021-06-07/projects/" ++ projectId ++ "/tags/" ++ tagIdentifier
  (([(url, r.marshalFields)], none))

/-! URL construction. `NewClient` (client.go lines 47-60) fixes
`baseURL = "https://api.sanity.io"` and nothing ever reassigns it; every
`ProjectsService` method builds its URL with
`fmt.Sprintf("%s/v2021-06-07/projects...", s.client.baseURL, ...)`.
The enumeration below carries one constructor per method of part_000, with
the identifiers that method interpolates into the path. -/

/-- ProjectsOp enumerates the methods of `ProjectsService` (part_000), each
with the path parameters it interpolates. -/
inductive ProjectsOp where
  | list : ProjectsOp
  | create : ProjectsOp
  | get (projectId : String) : ProjectsOp
  | update (projectId : String) : ProjectsOp
  | delete (projectId : String) : ProjectsOp
  | listCORSEntries (projectId : String) : ProjectsOp
  | createCORSEntry (projectId : String) : ProjectsOp
  | deleteCORSEntry (projectId : String) (entryId : Int) : ProjectsOp
  | listDatasets (projectId : String) : ProjectsOp
  | createDataset (projectId name : String) : ProjectsOp
  | copyDataset (projectId sourceDataset : String) : ProjectsOp
  | deleteDataset (projectId datasetName : String) : ProjectsOp
  | listActiveFeatures (projectId : String) : ProjectsOp
  | checkFeatureActive (projectId featureName : String) : ProjectsOp
  | listPermissions (projectId : String) : ProjectsOp
  | getUser (projectId userId : String) : ProjectsOp
  | listProjectRoles (projectId : String) : ProjectsOp
  | listProjectTokens (projectId : String) : ProjectsOp
  | createProjectToken (projectId : String) : ProjectsOp
  | deleteProjectToken (projectId tokenId : String) : ProjectsOp
  | listsDatasetTags (projectId datasetName : String) : ProjectsOp
  | createDatasetTag (projectId : String) : ProjectsOp
  | editDatasetTag (projectId tagIdentifier : String) : ProjectsOp
  | assignDatasetTag (projectId datasetName tagIdentifier : String) : ProjectsOp
  | unassignDatasetTag (projectId datasetName tagIdentifier : String) : ProjectsOp
  | deleteDatasetTag (projectId tagIdentifier : String) : ProjectsOp

/-- projectsOpURL gives, for each `ProjectsService` method, the URL its
`fmt.Sprintf` call builds from the client base URL (part_000; the `%d` of
DeleteCORSEntry renders the entry id in decimal). -/
def projectsOpURL (base : String) : ProjectsOp → String
  | ProjectsOp.list => base ++ "/v2021-06-07/projects"
  | ProjectsOp.create => base ++ "/v2021-06-07/projects"
  | ProjectsOp.get p => base ++ "/v2021-06-07/projects/" ++ p
  | ProjectsOp.update p => base ++ "/v2021-06-07/projects/" ++ p
  | ProjectsOp.delete p => base ++ "/v2021-06-07/projects/" ++ p
  | ProjectsOp.listCORSEntries p => base ++ "/v2021-06-07/projects/" ++ p ++ "/cors"
  | ProjectsOp.createCORSEntry p => base ++ "/v2021-06-07/projects/" ++ p ++ "/cors"
  | ProjectsOp.deleteCORSEntry p n => base ++ "/v2021-06-07/projects/" ++ p ++ "/cors/" ++ toString n
  | ProjectsOp.listDatasets p => base ++ "/v2021-06-07/projects/" ++ p ++ "/datasets"
  | ProjectsOp.createDataset p name => base ++ "/v2021-06-07/projects/" ++ p ++ "/datasets/" ++ name
  | ProjectsOp.copyDataset p src => base ++ "/v2021-06-07/projects/" ++ p ++ "/datasets/" ++ src ++ "/copy"
  | ProjectsOp.deleteDataset p name => base ++ "/v2021-06-07/projects/" ++ p ++ "/datasets/" ++ name
  | ProjectsOp.listActiveFeatures p => base ++ "/v2021-06-07/projects/" ++ p ++ "/features"
  | ProjectsOp.checkFeatureActive p f => base ++ "/v2021-06-07/projects/" ++ p ++ "/features/" ++ f
  | ProjectsOp.listPermissions p => base ++ "/v2021-06-07/projects/" ++ p ++ "/permissions"
  | ProjectsOp.getUser p u => base ++ "/v2021-06-07/projects/" ++ p ++ "/users/" ++ u
  | ProjectsOp.listProjectRoles p => base ++ "/v2021-06-07/projects/" ++ p ++ "/roles"
  | ProjectsOp.listProjectTokens p => base ++ "/v2021-06-07/projects/" ++ p ++ "/tokens"
  | ProjectsOp.createProjectToken p => base ++ "/v2021-06-07/projects/" ++ p ++ "/tokens"
  | ProjectsOp.deleteProjectToken p t => base ++ "/v2021-06-07/projects/" ++ p ++ "/tokens/" ++ t
  | ProjectsOp.listsDatasetTags p d => base ++ "/v2021-06-07/projects/" ++ p ++ "/datasets/" ++ d ++ "/tags"
  | ProjectsOp.createDatasetTag p => base ++ "/v2021-06-07/projects/" ++ p ++ "/tags"
  | ProjectsOp.editDatasetTag p t => base ++ "/v2021-06-07/projects/" ++ p ++ "/tags/" ++ t
  | ProjectsOp.assignDatasetTag p d t => base ++ "/v2021-06-07/projects/" ++ p ++ "/datasets/" ++ d ++ "/tags/" ++ t
  | ProjectsOp.unassignDatasetTag p d t => base ++ "/v2021-06-07/projects/" ++ p ++ "/datasets/" ++ d ++ "/tags/" ++ t
  | ProjectsOp.deleteDatasetTag p t => base ++ "/v2021-06-07/projects/" ++ p ++ "/tags/" ++ t

/-- getWebhookBaseURL embeds the function of the same name
(src/sanity/webhooks.go, lines 20-25): a non-empty test override is
returned as-is, otherwise the host is derived from the project id as
`https://<projectId>.api.sanity.io/v2025-02-19`. -/
def getWebhookBaseURL (testBaseURL projectId : String) : String :=
  if testBaseURL ≠ "" then testBaseURL
  else "https://" ++ projectId ++ ".api.sanity.io/v2025-02-19"

/-- WebhookOp enumerates the methods of `WebhooksService`
(src/sanity/webhooks.go), each with its path parameters. -/
inductive WebhookOp where
  | list (projectId : String) : WebhookOp
  | create (projectId : String) : WebhookOp
  | get (projectId webhookId : String) : WebhookOp
  | update (projectId webhookId : String) : WebhookOp
  | delete (projectId webhookId : String) : WebhookOp

/-- projectIdOf returns the project id a webhook operation is scoped to. -/
def projectIdOf : WebhookOp → String
  | WebhookOp.list p => p
  | WebhookOp.create p => p
  | WebhookOp.get p _ => p
  | WebhookOp.update p _ => p
  | WebhookOp.delete p _ => p

/-- webhookOpURL gives, for each `WebhooksService` method, the URL its
`fmt.Sprintf` call builds on top of `getWebhookBaseURL` (webhooks.go,
lines 124-174). -/
def webhookOpURL (testBaseURL : String) : WebhookOp → String
  | WebhookOp.list p => getWebhookBaseURL testBaseURL p ++ "/hooks/projects/" ++ p
  | WebhookOp.create p => getWebhookBaseURL testBaseURL p ++ "/hooks/projects/" ++ p
  | WebhookOp.get p w => getWebhookBaseURL testBaseURL p ++ "/hooks/projects/" ++ p ++ "/" ++ w
  | WebhookOp.update p w => getWebhookBaseURL testBaseURL p ++ "/hooks/projects/" ++ p ++ "/" ++ w
  | WebhookOp.delete p w => getWebhookBaseURL testBaseURL p ++ "/hooks/projects/" ++ p ++ "/" ++ w

/-- webhookPathOf is the path each webhook operation appends to the base
URL returned by `getWebhookBaseURL`. -/
def webhookPathOf : WebhookOp → String
  | WebhookOp.list p => "/hooks/projects/" ++ p
  | WebhookOp.create p => "/hooks/projects/" ++ p
  | WebhookOp.get p w => "/hooks/projects/" ++ p ++ "/" ++ w
  | WebhookOp.update p w => "/hooks/projects/" ++ p ++ "/" ++ w
  | WebhookOp.delete p w => "/hooks/projects/" ++ p ++ "/" ++ w

/-- projectsPathRest is the path each `ProjectsService` operation appends
after the common `<base>/v2021-06-07/projects` segment. -/
def projectsPathRest : ProjectsOp → String
  | ProjectsOp.list => ""
  | ProjectsOp.create => ""
  | ProjectsOp.get p => "/" ++ p
  | ProjectsOp.update p => "/" ++ p
  | ProjectsOp.delete p => "/" ++ p
  | ProjectsOp.listCORSEntries p => "/" ++ p ++ "/cors"
  | ProjectsOp.createCORSEntry p => "/" ++ p ++ "/cors"
  | ProjectsOp.deleteCORSEntry p n => "/" ++ p ++ "/cors/" ++ toString n
  | ProjectsOp.listDatasets p => "/" ++ p ++ "/datasets"
  | ProjectsOp.createDataset p name => "/" ++ p ++ "/datasets/" ++ name
  | ProjectsOp.copyDataset p src => "/" ++ p ++ "/datasets/" ++ src ++ "/copy"
  | ProjectsOp.deleteDataset p name => "/" ++ p ++ "/datasets/" ++ name
  | ProjectsOp.listActiveFeatures p => "/" ++ p ++ "/features"
  | ProjectsOp.checkFeatureActive p f => "/" ++ p ++ "/features/" ++ f
  | ProjectsOp.listPermissions p => "/" ++ p ++ "/permissions"
  | ProjectsOp.getUser p u => "/" ++ p ++ "/users/" ++ u
  | ProjectsOp.listProjectRoles p => "/" ++ p ++ "/roles"
  | ProjectsOp.listProjectTokens p => "/" ++ p ++ "/tokens"
  | ProjectsOp.createProjectToken p => "/" ++ p ++ "/tokens"
  | ProjectsOp.deleteProjectToken p t => "/" ++ p ++ "/tokens/" ++ t
  | ProjectsOp.listsDatasetTags p d => "/" ++ p ++ "/datasets/" ++ d ++ "/tags"
  | ProjectsOp.createDatasetTag p => "/" ++ p ++ "/tags"
  | ProjectsOp.editDatasetTag p t => "/" ++ p ++ "/tags/" ++ t
  | ProjectsOp.assignDatasetTag p d t => "/" ++ p ++ "/datasets/" ++ d ++ "/tags/" ++ t
  | ProjectsOp.unassignDatasetTag p d t => "/" ++ p ++ "/datasets/" ++ d ++ "/tags/" ++ t
  | ProjectsOp.deleteDatasetTag p t => "/" ++ p ++ "/tags/" ++ t

/-- webhookTail is the path each webhook operation appends after the common
`/hooks/projects` segment. -/
def webhookTail : WebhookOp → String
  | WebhookOp.list p => "/" ++ p
  | WebhookOp.create p => "/" ++ p
  | WebhookOp.get p w => "/" ++ p ++ "/" ++ w
  | WebhookOp.update p w => "/" ++ p ++ "/" ++ w
  | WebhookOp.delete p w => "/" ++ p ++ "/" ++ w

/-- containsStr states that `sub` occurs contiguously inside `s`. -/
def containsStr (s sub : String) : Prop :=
  ∃ pre post, s = pre ++ (sub ++ post)

/-! Helper lemmas about strings and member lookup. -/

theorem strAppendAssoc (a b c : String) : a ++ b ++ c = a ++ (b ++ c) := by
  apply String.ext
  simp [String.data_append, List.append_assoc]

theorem strAppendEmpty (a : String) : a ++ "" = a := by
  apply String.ext
  simp [String.data_append]

theorem projSegFuse (X : String) :
    ("/v2021-06-07/projects" : String) ++ ("/" ++ X) = "/v2021-06-07/projects/" ++ X := by
  rw [← strAppendAssoc]
  exact congrArg (fun s => s ++ X) (by decide)

theorem hooksSegFuse (X : String) :
    ("/hooks/projects" : String) ++ ("/" ++ X) = "/hooks/projects/" ++ X := by
  rw [← strAppendAssoc]
  exact congrArg (fun s => s ++ X) (by decide)

theorem goLookupFirst_append (k : String) (xs ys : List (String × Json)) :
    goLookupFirst k (xs ++ ys) =
      (match goLookupFirst k xs with
       | some v => some v
       | none => goLookupFirst k ys) := by
  induction xs with
  | nil => simp [goLookupFirst]
  | cons hd tl ih =>
    rcases hd with ⟨k2, v⟩
    by_cases h : k2 = k <;> simp [goLookupFirst, h, ih]


/-! Claim theorems and their witnesses. -/

/-- C1: for every call of the request executor `do` whose response has
status code above 299 and whose body parses as a JSON object whose
`message` extraction (Go unmarshal into the `errorMessage` struct) yields a
non-empty string `m`, the returned error's text equals `m` exactly. -/
theorem do_error_returns_exact_message {α : Type}
    (decode : String → Except String α) (status : Nat) (body : String)
    (fields : List (String × Json)) (m : String)
    (hstatus : status > 299)
    (hparse : parseJson body = some (Json.obj fields))
    (hmsg : goUnmarshalErrMsg (Json.obj fields) = some m)
    (hne : m ≠ "") :
    doResponse decode status body = Except.error m := by
  simp [doResponse, hstatus, doErrorText, hparse, hmsg, hne]

/-- Witness for C1 at a 404 response carrying a JSON error object. -/
theorem do_error_returns_exact_message_witness :
    doResponse (fun _ => Except.ok ()) 404 "\x7b\"message\":\"not found\"\x7d" =
      Except.error "not found" :=
  do_error_returns_exact_message (fun _ => Except.ok ()) 404
    "\x7b\"message\":\"not found\"\x7d" [("message", Json.str "not found")]
    "not found" (by decide) rfl rfl (by decide)

/-- C2: for every call of `do` whose response has status code above 299 and
whose body does not unmarshal to a usable non-empty `message` (invalid
JSON, or no usable message field), the returned error's text contains both
the numeric status code and the raw body text. -/
theorem do_error_fallback_contains_status_and_body {α : Type}
    (decode : String → Except String α) (status : Nat) (body : String)
    (hstatus : status > 299)
    (hmsg : (parseJson body).bind goUnmarshalErrMsg = none ∨
            (parseJson body).bind goUnmarshalErrMsg = some "") :
    ∃ e, doResponse decode status body = Except.error e ∧
      containsStr e (toString status) ∧ containsStr e body := by
  refine ⟨fallbackError status body, ?_, ?_, ?_⟩
  · rcases hmsg with h | h <;> simp [doResponse, hstatus, doErrorText, h]
  · exact ⟨"HTTP ", ": " ++ body, by simp [fallbackError, strAppendAssoc]⟩
  · refine ⟨"HTTP " ++ toString status ++ ": ", "", ?_⟩
    rw [strAppendEmpty]
    simp [fallbackError, strAppendAssoc]

/-- Witness for C2 at a 500 response with a non-JSON body. -/
theorem do_error_fallback_witness :
    ∃ e, doResponse (fun _ => Except.ok ()) 500 "oops" = Except.error e ∧
      containsStr e (toString 500) ∧ containsStr e "oops" :=
  do_error_fallback_contains_status_and_body (fun _ => Except.ok ()) 500 "oops"
    (by decide) (Or.inl rfl)

/-- C4: for every dataset name containing a space character, CreateDataset
returns the local error and issues zero network requests. -/
theorem createDataset_space_fails_locally (base projectId name : String)
    (h : strContainsSubstr name " " = true) :
    createDataset base projectId name = ([], some "name cannot contain spaces") := by
  simp [createDataset, h]

/-- Witness for C4 at a name containing a space. -/
theorem createDataset_space_fails_locally_witness :
    createDataset "https://api.sanity.io" "prj" "bad name" =
      ([], some "name cannot contain spaces") :=
  createDataset_space_fails_locally "https://api.sanity.io" "prj" "bad name" (by decide)

/-- C5 as stated is false: a tab is a whitespace character, yet CreateDataset
does not fail locally on a name containing one and issues the network
request. -/
theorem createDataset_tab_counterexample :
    ('\t'.isWhitespace = true) ∧
    ('\t' ∈ ("my\tdataset" : String).data) ∧
    (createDataset "https://api.sanity.io" "prj" "my\tdataset").1 ≠ [] ∧
    (createDataset "https://api.sanity.io" "prj" "my\tdataset").2 = none := by
  refine ⟨rfl, by decide, by decide, rfl⟩

/-- C5 amended: CreateDataset fails locally (no request, a local error)
exactly when the name contains a space character U+0020; names whose only
whitespace is some other character pass the local check and the network
request is attempted. -/
theorem createDataset_local_check_space_only (base projectId name : String) :
    ((createDataset base projectId name).1 = [] ↔ strContainsSubstr name " " = true) ∧
    ((createDataset base projectId name).2.isSome ↔ strContainsSubstr name " " = true) := by
  by_cases h : strContainsSubstr name " " = true <;> simp [createDataset, h]

/-- C8: for every successful (status at most 299) response whose body is the
bare JSON boolean `true` or `false`, CheckFeatureActive returns that boolean
and no error; decoding the bare scalar succeeds. -/
theorem checkFeatureActive_decodes_bare_bool (status : Nat) (h : status ≤ 299) :
    checkFeatureActive status "true" = Except.ok true ∧
    checkFeatureActive status "false" = Except.ok false := by
  constructor <;> simp [checkFeatureActive, doResponse, Nat.not_lt.mpr h] <;> rfl

/-- Witness for C8 at status 200. -/
theorem checkFeatureActive_decodes_bare_bool_witness :
    checkFeatureActive 200 "true" = Except.ok true ∧
    checkFeatureActive 200 "false" = Except.ok false :=
  checkFeatureActive_decodes_bare_bool 200 (by decide)

/-- C9: EditDatasetTag performs no local validation: for every request,
including one with empty Name and Title, serialization succeeds, the single
network request is attempted, and the serialized body always carries the
`name` member (empty or not). -/
theorem editDatasetTag_no_validation (base projectId tag : String)
    (r : EditDatasetTagRequest) :
    (editDatasetTag base projectId tag r).2 = none ∧
    (editDatasetTag base projectId tag r).1.map (fun q => goLookupFirst "name" q.2) =
      [some (Json.str r.Name)] := by
  refine ⟨rfl, ?_⟩
  simp [editDatasetTag, EditDatasetTagRequest.marshalFields, goLookupFirst]



/-- C3: UpdateProjectRequest serialization folds a non-empty Color into
metadata key `color` lower-cased and a non-empty ExternalStudioHost into
metadata key `externalHost`, sends neither as a top-level field, and omits
the `metadata` key entirely when both are unset. -/
theorem updateProject_marshal_metadata (r : UpdateProjectRequest) :
    (r.Color = "" ∧ r.ExternalStudioHost = "" →
      goLookupFirst "metadata" r.marshalFields = none) ∧
    (r.Color ≠ "" →
      ∃ md, goLookupFirst "metadata" r.marshalFields = some (Json.obj md) ∧
        ("color", Json.str (goToLower r.Color)) ∈ md) ∧
    (r.ExternalStudioHost ≠ "" →
      ∃ md, goLookupFirst "metadata" r.marshalFields = some (Json.obj md) ∧
        ("externalHost", Json.str r.ExternalStudioHost) ∈ md) ∧
    goLookupFirst "color" r.marshalFields = none ∧
    goLookupFirst "Color" r.marshalFields = none ∧
    goLookupFirst "externalStudioHost" r.marshalFields = none ∧
    goLookupFirst "ExternalStudioHost" r.marshalFields = none ∧
    goLookupFirst "externalHost" r.marshalFields = none := by
  rcases r with ⟨d, sh, col, esh, idu, afe⟩
  by_cases hc : col = "" <;> by_cases he : esh = "" <;>
    by_cases hd : d = "" <;> by_cases hs : sh = "" <;>
    rcases idu with _ | b1 <;> rcases afe with _ | b2 <;>
    simp [UpdateProjectRequest.marshalFields, goLookupFirst_append, goLookupFirst,
      hc, he, hd, hs]



theorem webhookSegFuse (X : String) :
    (".api.sanity.io/v2025-02-19" : String) ++ ("/hooks/projects/" ++ X) =
      ".api.sanity.io/v2025-02-19/hooks/projects/" ++ X := by
  rw [← strAppendAssoc]
  exact congrArg (fun s => s ++ X) (by decide)

/-- Witness for C3: Color "ABCDEF" lands in metadata.color lower-cased, and
with both Color and ExternalStudioHost unset the metadata key is absent. -/
theorem updateProject_marshal_metadata_witness :
    (∃ md, goLookupFirst "metadata"
        (UpdateProjectRequest.marshalFields ⟨"", "", "ABCDEF", "", none, none⟩) =
        some (Json.obj md) ∧ ("color", Json.str "abcdef") ∈ md) ∧
    goLookupFirst "metadata"
        (UpdateProjectRequest.marshalFields ⟨"n", "", "", "", none, none⟩) = none := by
  have h1 := updateProject_marshal_metadata ⟨"", "", "ABCDEF", "", none, none⟩
  have h2 := updateProject_marshal_metadata ⟨"n", "", "", "", none, none⟩
  exact ⟨h1.2.1 (by decide), h2.1 ⟨rfl, rfl⟩⟩

/-- C6: CreateDatasetTag with empty Name or Title fails locally with no
network request; with both set, the single request body is exactly `name`
and `title` plus, when set, `description` and `metadata.tone`. -/
theorem createDatasetTag_validation_and_body (base projectId : String)
    (r : CreateDatasetTagRequest) :
    (r.Name = "" ∨ r.Title = "" →
      (createDatasetTag base projectId r).1 = [] ∧
      (createDatasetTag base projectId r).2.isSome) ∧
    (r.Name ≠ "" → r.Title ≠ "" →
      createDatasetTag base projectId r =
        ([(base ++ "/v2021-06-07/projects/" ++ projectId ++ "/tags",
           [("name", Json.str r.Name), ("title", Json.str r.Title)]
             ++ (if r.Description ≠ "" then [("description", Json.str r.Description)] else [])
             ++ (if r.Tone ≠ "" then [("metadata", Json.obj [("tone", Json.str r.Tone)])] else []))],
         none)) := by
  constructor
  · intro h
    by_cases hn : r.Name = ""
    · simp [createDatasetTag, CreateDatasetTagRequest.marshalJSON, hn]
    · have ht : r.Title = "" := h.resolve_left hn
      simp [createDatasetTag, CreateDatasetTagRequest.marshalJSON, hn, ht]
  · intro hn ht
    simp [createDatasetTag, CreateDatasetTagRequest.marshalJSON, hn, ht]

/-- Witness for C6: empty name fails locally; a full request serializes with
name, title and metadata.tone. -/
theorem createDatasetTag_validation_witness :
    ((createDatasetTag "https://api.sanity.io" "p1" ⟨"", "T", "", ""⟩).1 = [] ∧
     (createDatasetTag "https://api.sanity.io" "p1" ⟨"", "T", "", ""⟩).2.isSome) ∧
    (createDatasetTag "https://api.sanity.io" "p1" ⟨"nightly", "Nightly", "", "critical"⟩).2 = none := by
  have h1 := createDatasetTag_validation_and_body "https://api.sanity.io" "p1" ⟨"", "T", "", ""⟩
  have h2 := createDatasetTag_validation_and_body "https://api.sanity.io" "p1"
    ⟨"nightly", "Nightly", "", "critical"⟩
  refine ⟨h1.1 (Or.inl rfl), ?_⟩
  rw [h2.2 (by decide) (by decide)]

/-- C7: every webhook operation targets host
`https://<projectId>.api.sanity.io/v2025-02-19` when no override base URL is
configured, and targets the override base URL unconditionally when a
non-empty one is configured. -/
theorem webhook_urls_target_project_host (op : WebhookOp) :
    webhookOpURL "" op =
      ("https://" ++ projectIdOf op ++ ".api.sanity.io/v2025-02-19") ++ webhookPathOf op ∧
    (∀ t : String, t ≠ "" → webhookOpURL t op = t ++ webhookPathOf op) := by
  constructor
  · cases op <;>
      simp [webhookOpURL, getWebhookBaseURL, projectIdOf, webhookPathOf, strAppendAssoc,
        webhookSegFuse]
  · intro t ht
    cases op <;>
      simp [webhookOpURL, getWebhookBaseURL, projectIdOf, webhookPathOf, ht, strAppendAssoc]

/-- Witness for C7 at project id test-project with and without an override. -/
theorem webhook_urls_target_project_host_witness :
    webhookOpURL "" (WebhookOp.list "test-project") =
      ("https://" ++ "test-project" ++ ".api.sanity.io/v2025-02-19") ++
        webhookPathOf (WebhookOp.list "test-project") ∧
    webhookOpURL "http://127.0.0.1:9999" (WebhookOp.list "test-project") =
      "http://127.0.0.1:9999" ++ webhookPathOf (WebhookOp.list "test-project") := by
  have h := webhook_urls_target_project_host (WebhookOp.list "test-project")
  exact ⟨h.1, h.2 "http://127.0.0.1:9999" (by decide)⟩

/-- C10: every ProjectsService URL is the client base URL followed by the
fixed segment `/v2021-06-07/projects`, and every WebhooksService URL without
a test override carries the fixed version `v2025-02-19` followed by
`/hooks/projects`; the URL builders are pure functions of the immutable
base URL, so no operation changes either part. -/
theorem service_urls_use_fixed_version :
    (∀ (base : String) (op : ProjectsOp),
      projectsOpURL base op = base ++ ("/v2021-06-07/projects" ++ projectsPathRest op)) ∧
    (∀ op : WebhookOp,
      webhookOpURL "" op =
        ("https://" ++ projectIdOf op ++ ".api.sanity.io/v2025-02-19") ++
          ("/hooks/projects" ++ webhookTail op)) := by
  constructor
  · intro base op
    cases op <;>
      simp [projectsOpURL, projectsPathRest, strAppendAssoc, projSegFuse, strAppendEmpty]
  · intro op
    cases op <;>
      simp [webhookOpURL, getWebhookBaseURL, projectIdOf, webhookTail, strAppendAssoc,
        hooksSegFuse, webhookSegFuse]

end GoSanity
